import Mathlib

/-!
Verification of the incremental node-tree update core of the repository
(files `core/main_tree_handler.py` and `core/tasks.py`): per-node dirty
flag gating (`node_updater`), walker short-circuiting (`tree_updater`),
error capture into the status store (`NodesStatuses`), topology diff
marking (`ContextTrees._update_topology_status`) and the task queue
(`Tasks` / `NodesUpdater`), modelled as a shallow embedding.

External collaborators that are not part of the repository (a node's
`process()` payload, a group node's nested `updater`, wall-clock timing)
are modelled as explicit behaviour parameters.  Generator suspension is
made observable through an event trace: each step of the embedding
records the yields, the flag mutations, the external calls, the logged
diagnostics and the status-store writes, in the textual order in which
the Python source performs them.
-/

namespace SvCore

/-- Node capability kinds, as dispatched in `tree_updater`:
`group` when the wrapped blender node has an `updater` attribute,
`process` when it has a `process` method, `empty` otherwise
(reroutes, frame nodes). -/
inductive Kind
  | group
  | process
  | empty
deriving DecidableEq, Repr

/-- Per-node dirty flags: the `is_updated`, `is_input_changed` and
`is_output_changed` attributes of a tree node. -/
structure NodeState where
  is_updated : Bool
  is_input_changed : Bool
  is_output_changed : Bool
deriving DecidableEq, Repr

/-- What happens when a leaf node's step runs: the external `process()`
call returns normally, it raises an ordinary exception, or the scheduler
throws `CancelError` into the generator at the `yield` suspension point
(in which case `process()` is never invoked). -/
inductive Outcome
  | ok
  | raiseError
  | raiseCancel
deriving DecidableEq, Repr

/-- Completion result of a group node's nested updater
(`bl_tween.updater(is_input_changed=...)`): the pair
`(is_output_changed, out_error)` it returns; the error is collapsed to
its truthiness. -/
structure GroupRes where
  is_output_changed : Bool
  has_error : Bool
deriving DecidableEq, Repr

/-- Python value bound to `node_error` in `tree_updater`, keeping only
what the handler observes: `pyNone` is Python `None`, `cancelError` a
`CancelError` instance, `exception` any other exception, and
`tupleOfNone` the one-element tuple `(None,)` that `empty_updater`
returns (its kwargs values). -/
inductive PyErrVal
  | pyNone
  | cancelError
  | exception
  | tupleOfNone
deriving DecidableEq, Repr

/-- Python truthiness of a `PyErrVal`: `None` is falsy, every exception
instance and every non-empty tuple is truthy. -/
def PyErrVal.truthy : PyErrVal → Bool
  | .pyNone => false
  | _ => true

/-- Observable events of one walk, in source order: generator yields,
assignments to the three node flags, the external `process()` call, the
nested group updater call (recording the `is_input_changed` argument it
receives), the `error(e)` diagnostic, and a `NodesStatuses.set` write
with its error value and `update_time`. -/
inductive Ev
  | yieldNode (n : Nat)
  | setOutputChanged (n : Nat) (b : Bool)
  | setInputChanged (n : Nat) (b : Bool)
  | setUpdated (n : Nat) (b : Bool)
  | runProcess (n : Nat)
  | runNested (n : Nat) (input_changed : Bool)
  | logDiag (n : Nat)
  | statusWrite (n : Nat) (e : PyErrVal) (t : Option Nat)
deriving DecidableEq, Repr

/-- States of all nodes of a tree, by node id. -/
abbrev States := Nat → NodeState

/-- Update the state of one node, leaving all others unchanged. -/
def setSt (st : States) (n : Nat) (s : NodeState) : States :=
  fun m => if m = n then s else st m

/-- The `previous_nodes_are_changed` expression shared by all three
updaters: `any(n.is_output_changed for n in node.last_nodes)`. -/
def prevChanged (st : States) (last : List Nat) : Bool :=
  last.any fun m => (st m).is_output_changed

/-- The `should_be_updated` expression shared by all three updaters:
`not node.is_updated or node.is_input_changed or previous_nodes_are_changed`. -/
def shouldRun (st : States) (last : List Nat) (n : Nat) : Bool :=
  !(st n).is_updated || (st n).is_input_changed || prevChanged st last

/-- Result of running one updater generator to completion: the node
states after it, the Python value it returns to `yield from`, and the
trace of observable events it produced. -/
structure UpdRes where
  st : States
  retval : PyErrVal
  events : List Ev

/-- Embedding of `node_updater` (main_tree_handler.py, lines 367-392):
compute `should_be_updated`, unconditionally reset `is_output_changed`
and `is_input_changed`, and only then, if the node should run, yield and
invoke `process()`; success sets `is_updated` and `is_output_changed`,
`CancelError` (thrown in at the yield, so `process()` never runs) and
ordinary exceptions set `is_updated = False`, and only the ordinary
exception branch logs a diagnostic.  The caught error is returned. -/
def node_updater (st : States) (last : List Nat) (n : Nat) (oc : Outcome) : UpdRes :=
  let should := shouldRun st last n
  let st1 := setSt st n { st n with is_output_changed := false, is_input_changed := false }
  let ev0 := [Ev.setOutputChanged n false, Ev.setInputChanged n false]
  if should then
    match oc with
    | .ok =>
        { st := setSt st1 n { st1 n with is_updated := true, is_output_changed := true }
          retval := .pyNone
          events := ev0 ++ [Ev.yieldNode n, Ev.runProcess n,
                            Ev.setUpdated n true, Ev.setOutputChanged n true] }
    | .raiseCancel =>
        { st := setSt st1 n { st1 n with is_updated := false }
          retval := .cancelError
          events := ev0 ++ [Ev.yieldNode n, Ev.setUpdated n false] }
    | .raiseError =>
        { st := setSt st1 n { st1 n with is_updated := false }
          retval := .exception
          events := ev0 ++ [Ev.yieldNode n, Ev.runProcess n,
                            Ev.setUpdated n false, Ev.logDiag n] }
  else
    { st := st1, retval := .pyNone, events := ev0 }

/-- Embedding of `group_node_updater` (main_tree_handler.py, lines
395-405): compute `should_be_updated`, yield first, delegate to the
nested updater passing `should_be_updated` as its `is_input_changed`
argument, then set `is_input_changed = False`,
`is_updated = not out_error`, `is_output_changed` from the nested
result, and return the nested error. -/
def group_node_updater (st : States) (last : List Nat) (n : Nat)
    (res : Bool → GroupRes) : UpdRes :=
  let should := shouldRun st last n
  let r := res should
  { st := setSt st n { st n with is_input_changed := false,
                                 is_updated := !r.has_error,
                                 is_output_changed := r.is_output_changed }
    retval := if r.has_error then .exception else .pyNone
    events := [Ev.yieldNode n, Ev.runNested n should, Ev.setInputChanged n false,
               Ev.setUpdated n (!r.has_error), Ev.setOutputChanged n r.is_output_changed] }

/-- Embedding of `empty_updater` (main_tree_handler.py, lines 408-418)
as invoked by `tree_updater` with `empty_updater(node, error=None)`:
compute `should_be_updated`, set `is_input_changed = False`,
`is_updated = True`, `is_output_changed = should_be_updated`, and return
`tuple(kwargs.values())`, the one-element tuple `(None,)`.  The body
returns before its `yield` statement, so it never suspends. -/
def empty_updater (st : States) (last : List Nat) (n : Nat) : UpdRes :=
  let should := shouldRun st last n
  { st := setSt st n { st n with is_input_changed := false,
                                 is_updated := true,
                                 is_output_changed := should }
    retval := .tupleOfNone
    events := [Ev.setInputChanged n false, Ev.setUpdated n true,
               Ev.setOutputChanged n should] }

/-- Static description of one node in the walked tree: its
`last_nodes` (upstream) list and its capability kind. -/
structure NodeInfo where
  last_nodes : List Nat
  kind : Kind

/-- External behaviour of the collaborators that are outside the
repository: the result of each leaf node's `process()` call, the result
of each group node's nested updater as a function of the
`is_input_changed` argument it receives, and the measured elapsed
milliseconds of each node's step. -/
structure Behavior where
  proc : Nat → Outcome
  groupRes : Nat → Bool → GroupRes
  elapsed : Nat → Nat

/-- The status store `NodesStatuses`: node id to the last
`NodeStatistic(error, update_time)` written for it, `none` when no entry
was ever written. -/
abbrev Statuses := Nat → Option (PyErrVal × Option Nat)

/-- Result of a (partial) walk: node states, status store, event trace. -/
structure StepRes where
  st : States
  stat : Statuses
  events : List Ev

/-- Embedding of one iteration of the `tree_updater` loop
(main_tree_handler.py, lines 206-230) for node `n`: if some upstream
node is not updated, force `is_updated = False`,
`is_output_changed = False` and continue without dispatching; otherwise
select the updater by capability, run it, and if afterwards
`node.is_output_changed or node_error` write
`NodeStatistic(node_error, None if node_error else update_time)` to the
status store.  The capability dispatch (`updater = ...`,
main_tree_handler.py lines 216-221) is factored out as
`select_updater`. -/
def select_updater (info : Nat → NodeInfo) (bv : Behavior)
    (st : States) (n : Nat) : UpdRes :=
  match (info n).kind with
  | .group => group_node_updater st (info n).last_nodes n (bv.groupRes n)
  | .process => node_updater st (info n).last_nodes n (bv.proc n)
  | .empty => empty_updater st (info n).last_nodes n

/-- One iteration of the `tree_updater` loop for node `n`; see the
comment on `select_updater` above for the source mapping. -/
def tree_step (info : Nat → NodeInfo) (bv : Behavior)
    (st : States) (stat : Statuses) (n : Nat) : StepRes :=
  let last := (info n).last_nodes
  if !(last.all fun m => (st m).is_updated) then
    { st := setSt st n { st n with is_updated := false, is_output_changed := false }
      stat := stat
      events := [Ev.setUpdated n false, Ev.setOutputChanged n false] }
  else
    let r : UpdRes := select_updater info bv st n
    if (r.st n).is_output_changed || r.retval.truthy then
      let t : Option Nat := if r.retval.truthy then none else some (bv.elapsed n)
      { st := r.st
        stat := fun m => if m = n then some (r.retval, t) else stat m
        events := r.events ++ [Ev.statusWrite n r.retval t] }
    else
      { st := r.st, stat := stat, events := r.events }

/-- Embedding of the full `tree_updater` walk: fold `tree_step` over the
`sorted_walk` node order, concatenating event traces. -/
def tree_walk (info : Nat → NodeInfo) (bv : Behavior) :
    States → Statuses → List Nat → StepRes
  | st, stat, [] => { st := st, stat := stat, events := [] }
  | st, stat, n :: rest =>
      let r := tree_step info bv st stat n
      let r2 := tree_walk info bv r.st r.stat rest
      { st := r2.st, stat := r2.stat, events := r.events ++ r2.events }

/-- Checks that a node list is walked in an order compatible with the
dependency structure: every node's upstream list is contained in the
already-walked part (`done`).  This is the guarantee provided by
`tree.sorted_walk(tree.output_nodes)`. -/
def topoOK (info : Nat → NodeInfo) : List Nat → List Nat → Bool
  | _, [] => true
  | done, n :: rest =>
      ((info n).last_nodes.all fun m => done.contains m) && topoOK info (n :: done) rest

/-- A link of a tree: the 4-tuple (from node, from output socket,
to node, to input socket) that identifies it; two links are equal iff
all four fields match.  Node and socket identifiers are abstracted to
numbers. -/
structure Link where
  from_node : Nat
  from_socket : Nat
  to_node : Nat
  to_socket : Nat
deriving DecidableEq, Repr

/-- The old snapshot as read by `ContextTrees._update_topology_status`:
its node names, its links, and for each node name and output socket
identifier the socket's outgoing link list.  `socketLinks x s = none`
models `get_output_socket` returning `None` (no such socket); the
lookup itself lives in `utils/tree_structure.py`, outside the embedded
sources, and is therefore kept abstract. -/
structure OldTree where
  names : List Nat
  links : List Link
  socketLinks : Nat → Nat → Option (List Link)

/-- The new snapshot: its node names and links. -/
structure NewTree where
  names : List Nat
  links : List Link

/-- Sets the `is_input_changed` flag of one node of the new tree. -/
def markInputChanged (f : Nat → Bool) (x : Nat) : Nat → Bool :=
  fun y => if y = x then true else f y

/-- The `has_old_from_socket_links` truthiness computed for an added
link (main_tree_handler.py, lines 314-319): the link's source node
exists in the old snapshot, `get_output_socket` finds the socket there,
and the socket's link list is non-empty. -/
def hasOldFromSocketLinks (old : OldTree) (l : Link) : Bool :=
  if old.names.contains l.from_node then
    match old.socketLinks l.from_node l.from_socket with
    | some ls => !ls.isEmpty
    | none => false
  else false

/-- Embedding of the added-links loop of
`ContextTrees._update_topology_status` (main_tree_handler.py, lines
312-326): for each link of `new.links - old.links`, mark the source
node `is_input_changed` when `has_old_from_socket_links` is falsy,
otherwise mark the destination node.  `f` is the prior
`is_input_changed` assignment of the new tree's nodes. -/
def mark_added_links (old : OldTree) (new : NewTree) (f : Nat → Bool) : Nat → Bool :=
  let new_links := new.links.filter fun l => !(old.links.contains l)
  new_links.foldl
    (fun f l =>
      if !(hasOldFromSocketLinks old l) then markInputChanged f l.from_node
      else markInputChanged f l.to_node)
    f

/-- Embedding of the removed-links loop of
`ContextTrees._update_topology_status` (main_tree_handler.py, lines
328-331): for each link of `old.links - new.links` whose destination
node is still in the new tree, mark that node `is_input_changed`.
Containment of the destination in the new tree's node collection is by
name (the collection lives in `utils/tree_structure.py`, outside the
embedded sources; the spec reads it as "the destination node still
exists in the new snapshot"). -/
def mark_removed_links (old : OldTree) (new : NewTree) (f : Nat → Bool) : Nat → Bool :=
  let removed_links := old.links.filter fun l => !(new.links.contains l)
  removed_links.foldl
    (fun f l => if new.names.contains l.to_node then markInputChanged f l.to_node else f)
    f

/-- Embedding of `ContextTrees._update_topology_status` for trees whose
identity was already cached: process added links, then removed links. -/
def update_topology_status (old : OldTree) (new : NewTree) (f : Nat → Bool) : Nat → Bool :=
  mark_removed_links old new (mark_added_links old new f)

/-- State of the `Tasks` queue (tasks.py): `_todo`, a set of `Task`
objects whose equality and hash are by `tree.tree_id`, modelled as a
duplicate-free list of tree ids, and `_current`, the task popped for
execution.  Graph identities are abstracted to numbers. -/
structure TasksState where
  todo : List Nat
  current : Option Nat
deriving DecidableEq, Repr

/-- Embedding of `Tasks.add` (tasks.py, lines 37-39): `self._todo.add(task)`
with `Task.__eq__`/`Task.__hash__` by tree id, so adding a task whose
tree id is already pending leaves the set unchanged. -/
def tasksAdd (s : TasksState) (id : Nat) : TasksState :=
  if s.todo.contains id then s else { s with todo := id :: s.todo }

/-- Embedding of the `Tasks.current` property's pop (tasks.py, lines
72-83): when `_current` is absent and `_todo` is non-empty, pop a task
from the pending set and make it current (pop order over a Python set
is arbitrary; the head is taken here). -/
def tasksPopCurrent (s : TasksState) : TasksState :=
  match s.current with
  | some _ => s
  | none =>
      match s.todo with
      | [] => s
      | t :: rest => { todo := rest, current := some t }

/-- Number of live `Task` objects held for one graph identity: pending
ones plus the in-flight one. -/
def tasksCount (s : TasksState) (id : Nat) : Nat :=
  s.todo.count id + (if s.current = some id then 1 else 0)

/-- State of `NodesUpdater` (main_tree_handler.py): `_bl_tree`, the
tree of the registered task, and whether `_handler` is set
(`is_running`). -/
structure NodesUpdaterState where
  bl_tree : Option Nat
  running : Bool
deriving DecidableEq, Repr

/-- Embedding of `NodesUpdater.add_task` (main_tree_handler.py, lines
99-104): raise `RuntimeError` when a tree update is already running,
otherwise store the tree. -/
def nodesUpdaterAddTask (s : NodesUpdaterState) (t : Nat) :
    Except String NodesUpdaterState :=
  if s.running then .error "already updating a tree"
  else .ok { s with bl_tree := some t }

/-! Helper lemmas: every step mutates only its own node, and walks over
concatenated node lists compose. -/

@[simp]
lemma setSt_self (st : States) (n : Nat) (s : NodeState) : setSt st n s n = s := by
  simp [setSt]

lemma setSt_other (st : States) (n m : Nat) (s : NodeState) (h : m ≠ n) :
    setSt st n s m = st m := by
  simp [setSt, h]

lemma node_updater_st_other (st : States) (last : List Nat) (n : Nat) (oc : Outcome)
    (m : Nat) (h : m ≠ n) : (node_updater st last n oc).st m = st m := by
  by_cases hs : shouldRun st last n <;>
    cases oc <;> simp [node_updater, hs, setSt, h]

lemma group_node_updater_st_other (st : States) (last : List Nat) (n : Nat)
    (res : Bool → GroupRes) (m : Nat) (h : m ≠ n) :
    (group_node_updater st last n res).st m = st m := by
  simp [group_node_updater, setSt, h]

lemma empty_updater_st_other (st : States) (last : List Nat) (n : Nat)
    (m : Nat) (h : m ≠ n) : (empty_updater st last n).st m = st m := by
  simp [empty_updater, setSt, h]

lemma select_updater_st_other (info : Nat → NodeInfo) (bv : Behavior)
    (st : States) (n m : Nat) (h : m ≠ n) :
    (select_updater info bv st n).st m = st m := by
  cases hk : (info n).kind <;>
    simp only [select_updater, hk] <;>
    first
      | exact node_updater_st_other st _ n _ m h
      | exact group_node_updater_st_other st _ n _ m h
      | exact empty_updater_st_other st _ n m h

lemma tree_step_st_other (info : Nat → NodeInfo) (bv : Behavior)
    (st : States) (stat : Statuses) (n m : Nat) (h : m ≠ n) :
    (tree_step info bv st stat n).st m = st m := by
  simp only [tree_step]
  split
  · simp [setSt, h]
  · split <;> exact select_updater_st_other info bv st n m h

lemma tree_walk_st_nonmem (info : Nat → NodeInfo) (bv : Behavior) :
    ∀ (L : List Nat) (st : States) (stat : Statuses) (m : Nat), m ∉ L →
      (tree_walk info bv st stat L).st m = st m := by
  intro L
  induction L with
  | nil => intro st stat m _; rfl
  | cons n rest ih =>
      intro st stat m hm
      rw [List.mem_cons] at hm
      push_neg at hm
      show (tree_walk info bv _ _ rest).st m = st m
      rw [ih _ _ m hm.2, tree_step_st_other info bv st stat n m hm.1]

lemma tree_walk_append (info : Nat → NodeInfo) (bv : Behavior) :
    ∀ (xs ys : List Nat) (st : States) (stat : Statuses),
      tree_walk info bv st stat (xs ++ ys)
        = { st := (tree_walk info bv (tree_walk info bv st stat xs).st
                    (tree_walk info bv st stat xs).stat ys).st
            stat := (tree_walk info bv (tree_walk info bv st stat xs).st
                    (tree_walk info bv st stat xs).stat ys).stat
            events := (tree_walk info bv st stat xs).events
                ++ (tree_walk info bv (tree_walk info bv st stat xs).st
                    (tree_walk info bv st stat xs).stat ys).events } := by
  intro xs
  induction xs with
  | nil => intro ys st stat; simp [tree_walk]
  | cons n xs ih =>
      intro ys st stat
      simp only [List.cons_append, tree_walk, List.append_eq, ih, List.append_assoc]

/-! Claim theorems. -/

/-- C1: in `node_updater`, the node's computation is dispatched iff
`should_run = not updated or input_changed or any upstream output_changed`;
the `is_output_changed` and `is_input_changed` flags are reset to false
before the run regardless of the decision (the first two trace events);
and when `should_run` is false the `is_updated` flag is left unchanged,
no work is performed (the trace is just the two resets) and no error is
returned. -/
theorem c1_node_updater_gating (st : States) (last : List Nat) (n : Nat) (oc : Outcome) :
    (Ev.yieldNode n ∈ (node_updater st last n oc).events
        ↔ (!(st n).is_updated || (st n).is_input_changed
            || last.any fun m => (st m).is_output_changed) = true)
    ∧ (node_updater st last n oc).events.take 2
        = [Ev.setOutputChanged n false, Ev.setInputChanged n false]
    ∧ ((!(st n).is_updated || (st n).is_input_changed
            || last.any fun m => (st m).is_output_changed) = false →
        (node_updater st last n oc).st n
            = { st n with is_output_changed := false, is_input_changed := false }
        ∧ (node_updater st last n oc).events
            = [Ev.setOutputChanged n false, Ev.setInputChanged n false]
        ∧ (node_updater st last n oc).retval = .pyNone)

    := by
  by_cases hs : shouldRun st last n
  · have hs' := hs
    simp only [shouldRun, prevChanged] at hs'
    cases oc <;> simp [node_updater, hs, hs', shouldRun, prevChanged]
  · have hs' : shouldRun st last n = false := by simpa using hs
    have hs'' := hs'
    simp only [shouldRun, prevChanged] at hs''
    cases oc <;> simp [node_updater, hs', hs'', shouldRun, prevChanged]

/-- Steady-state flags for every node: updated, nothing changed. -/
def steadySt : States := fun _ => ⟨true, false, false⟩

/-- All-outdated flags for every node: not yet updated. -/
def dirtySt : States := fun _ => ⟨false, false, false⟩

/-- An empty status store. -/
def noStat : Statuses := fun _ => none

/-- Concrete walk fixture: a chain 0 → 1 → 2, a sibling 3 depending
only on 0, and a pass-through node 4 fed by 1. -/
def chainInfo : Nat → NodeInfo
  | 0 => ⟨[], .process⟩
  | 1 => ⟨[0], .process⟩
  | 2 => ⟨[1], .process⟩
  | 3 => ⟨[0], .process⟩
  | _ => ⟨[1], .empty⟩

/-- Behaviour where every process call succeeds in 7 ms and nested
group updaters change output exactly when their input changed. -/
def okBeh : Behavior := ⟨fun _ => .ok, fun _ b => ⟨b, false⟩, fun _ => 7⟩

/-- Behaviour where node 0's process raises an ordinary exception. -/
def failAtZeroBeh : Behavior :=
  ⟨fun n => if n = 0 then .raiseError else .ok, fun _ b => ⟨b, false⟩, fun _ => 7⟩

/-- Witness for C1 at a steady-state node with no upstream: the gate
evaluates false, the flags are reset, and nothing else happens. -/
theorem c1_node_updater_gating_witness :
    (!(steadySt 0).is_updated || (steadySt 0).is_input_changed
        || [].any fun m => (steadySt m).is_output_changed) = false
    ∧ (node_updater steadySt [] 0 .ok).st 0
        = { steadySt 0 with is_output_changed := false, is_input_changed := false }
    ∧ (node_updater steadySt [] 0 .ok).events
        = [Ev.setOutputChanged 0 false, Ev.setInputChanged 0 false]
    ∧ (node_updater steadySt [] 0 .ok).retval = .pyNone :=
  ⟨by decide,
   ((c1_node_updater_gating steadySt [] 0 .ok).2.2 (by decide)).1,
   ((c1_node_updater_gating steadySt [] 0 .ok).2.2 (by decide)).2.1,
   ((c1_node_updater_gating steadySt [] 0 .ok).2.2 (by decide)).2.2⟩

/-- C2: in the `tree_updater` walk, a node some of whose upstream nodes
are not updated after their own step is not dispatched at all: its
state is forced to `is_updated = false`, `is_output_changed = false`,
no status entry is written for it, its trace segment is just the two
forced assignments (no yield, no process call), and the walk then
continues over the remaining nodes from the forced state; a node whose
upstream nodes are all updated is dispatched normally (a computational
node whose gate holds reaches its yield). -/
theorem c2_short_circuit (info : Nat → NodeInfo) (bv : Behavior)
    (st0 : States) (stat0 : Statuses) (p : List Nat) (n : Nat) (q : List Nat)
    (h : ((info n).last_nodes.all fun m =>
            ((tree_walk info bv st0 stat0 p).st m).is_updated) = false) :
    ((tree_step info bv (tree_walk info bv st0 stat0 p).st
        (tree_walk info bv st0 stat0 p).stat n).st n
       = { (tree_walk info bv st0 stat0 p).st n with
             is_updated := false, is_output_changed := false })
    ∧ (tree_step info bv (tree_walk info bv st0 stat0 p).st
        (tree_walk info bv st0 stat0 p).stat n).stat
       = (tree_walk info bv st0 stat0 p).stat
    ∧ (tree_step info bv (tree_walk info bv st0 stat0 p).st
        (tree_walk info bv st0 stat0 p).stat n).events
       = [Ev.setUpdated n false, Ev.setOutputChanged n false]
    ∧ (tree_walk info bv st0 stat0 (p ++ n :: q)).events
       = (tree_walk info bv st0 stat0 p).events
         ++ [Ev.setUpdated n false, Ev.setOutputChanged n false]
         ++ (tree_walk info bv
               (setSt (tree_walk info bv st0 stat0 p).st n
                 { (tree_walk info bv st0 stat0 p).st n with
                     is_updated := false, is_output_changed := false })
               (tree_walk info bv st0 stat0 p).stat q).events
    ∧ (∀ (st : States) (stat : Statuses) (m : Nat),
         ((info m).last_nodes.all fun k => (st k).is_updated) = true →
         (info m).kind = .process →
         shouldRun st (info m).last_nodes m = true →
         Ev.yieldNode m ∈ (tree_step info bv st stat m).events) := by
  have hstep : tree_step info bv (tree_walk info bv st0 stat0 p).st
      (tree_walk info bv st0 stat0 p).stat n
      = { st := setSt (tree_walk info bv st0 stat0 p).st n
                  { (tree_walk info bv st0 stat0 p).st n with
                      is_updated := false, is_output_changed := false }
          stat := (tree_walk info bv st0 stat0 p).stat
          events := [Ev.setUpdated n false, Ev.setOutputChanged n false] } := by
    simp [tree_step, h]
  refine ⟨by rw [hstep]; simp, by rw [hstep], by rw [hstep], ?_, ?_⟩
  · rw [tree_walk_append info bv p (n :: q)]
    show ((tree_walk info bv st0 stat0 p).events
        ++ (tree_walk info bv _ _ (n :: q)).events) = _
    simp only [tree_walk, hstep, List.append_assoc]
  · intro st stat m hup hk hs
    cases hoc : bv.proc m <;>
      simp [tree_step, select_updater, hup, hk, node_updater, hs, hoc, PyErrVal.truthy]

/-- Witness for C2: node 0 fails, so node 1 (whose only upstream is 0)
is forced not-updated without dispatch. -/
theorem c2_short_circuit_witness :
    (tree_step chainInfo failAtZeroBeh
        (tree_walk chainInfo failAtZeroBeh dirtySt noStat [0]).st
        (tree_walk chainInfo failAtZeroBeh dirtySt noStat [0]).stat 1).st 1
      = { (tree_walk chainInfo failAtZeroBeh dirtySt noStat [0]).st 1 with
            is_updated := false, is_output_changed := false } :=
  (c2_short_circuit chainInfo failAtZeroBeh dirtySt noStat [0] 1 [2] (by decide)).1

/-- A single computational node with no upstream. -/
def soloInfo : Nat → NodeInfo := fun _ => ⟨[], .process⟩

/-- A single pass-through node with no upstream. -/
def passInfo : Nat → NodeInfo := fun _ => ⟨[], .empty⟩

/-- Behaviour where every process call raises an ordinary exception. -/
def errBeh : Behavior := ⟨fun _ => .raiseError, fun _ b => ⟨b, false⟩, fun _ => 7⟩

/-- Behaviour where every dispatched step is cancelled at its yield. -/
def cancelBeh : Behavior := ⟨fun _ => .raiseCancel, fun _ b => ⟨b, false⟩, fun _ => 7⟩

/-- C3 counterexample: a failing leaf node's status entry stores the
captured error with `update_time = None`, not together with the elapsed
execution time (here 7 ms), because `tree_updater` builds
`NodeStatistic(node_error, None if node_error else update_time)`. -/
theorem c3_counterexample :
    (tree_step soloInfo errBeh dirtySt noStat 0).stat 0
        = some (.exception, none)
    ∧ (tree_step soloInfo errBeh dirtySt noStat 0).stat 0
        ≠ some (.exception, some 7) := by decide

/-- C3 amended: a leaf node whose `process()` raises a non-cancellation
exception ends with `is_updated = false` and `is_output_changed = false`,
the exception is captured at the node step (returned as a value, with a
diagnostic logged, never re-raised), and a status entry is written that
holds the error with no execution time. -/
theorem c3_error_capture (info : Nat → NodeInfo) (bv : Behavior)
    (st : States) (stat : Statuses) (n : Nat)
    (hk : (info n).kind = .process)
    (hoc : bv.proc n = .raiseError)
    (hup : ((info n).last_nodes.all fun m => (st m).is_updated) = true)
    (hs : shouldRun st (info n).last_nodes n = true) :
    ((tree_step info bv st stat n).st n).is_updated = false
    ∧ ((tree_step info bv st stat n).st n).is_output_changed = false
    ∧ Ev.logDiag n ∈ (tree_step info bv st stat n).events
    ∧ (tree_step info bv st stat n).stat n = some (.exception, none) := by
  simp [tree_step, select_updater, hup, hk, node_updater, hs, hoc, PyErrVal.truthy, setSt]

/-- Witness for C3 amended at the concrete failing solo node. -/
theorem c3_error_capture_witness :
    ((tree_step soloInfo errBeh dirtySt noStat 0).st 0).is_updated = false
    ∧ ((tree_step soloInfo errBeh dirtySt noStat 0).st 0).is_output_changed = false
    ∧ Ev.logDiag 0 ∈ (tree_step soloInfo errBeh dirtySt noStat 0).events
    ∧ (tree_step soloInfo errBeh dirtySt noStat 0).stat 0 = some (.exception, none) :=
  c3_error_capture soloInfo errBeh dirtySt noStat 0 rfl rfl (by decide) (by decide)

/-- C4 counterexample: a leaf node cancelled at its suspension point
does get a status entry written for it, recording the `CancelError` as
its error, because `tree_updater` writes a statistic whenever
`node_error` is truthy. -/
theorem c4_counterexample :
    (tree_step soloInfo cancelBeh dirtySt noStat 0).stat 0
        = some (.cancelError, none)
    ∧ noStat 0 = none := by decide

/-- C4 amended: a leaf node whose step is interrupted by `CancelError`
ends with `is_updated = false`, its process is never invoked, no
diagnostic is logged for it, but the walker does write a status entry
recording the `CancelError` as the node's error (with no time). -/
theorem c4_cancel_state (info : Nat → NodeInfo) (bv : Behavior)
    (st : States) (stat : Statuses) (n : Nat)
    (hk : (info n).kind = .process)
    (hoc : bv.proc n = .raiseCancel)
    (hup : ((info n).last_nodes.all fun m => (st m).is_updated) = true)
    (hs : shouldRun st (info n).last_nodes n = true) :
    ((tree_step info bv st stat n).st n).is_updated = false
    ∧ Ev.logDiag n ∉ (tree_step info bv st stat n).events
    ∧ Ev.runProcess n ∉ (tree_step info bv st stat n).events
    ∧ (tree_step info bv st stat n).stat n = some (.cancelError, none) := by
  simp [tree_step, select_updater, hup, hk, node_updater, hs, hoc, PyErrVal.truthy, setSt]

/-- Witness for C4 amended at the concrete cancelled solo node. -/
theorem c4_cancel_state_witness :
    ((tree_step soloInfo cancelBeh dirtySt noStat 0).st 0).is_updated = false
    ∧ Ev.logDiag 0 ∉ (tree_step soloInfo cancelBeh dirtySt noStat 0).events
    ∧ Ev.runProcess 0 ∉ (tree_step soloInfo cancelBeh dirtySt noStat 0).events
    ∧ (tree_step soloInfo cancelBeh dirtySt noStat 0).stat 0 = some (.cancelError, none) :=
  c4_cancel_state soloInfo cancelBeh dirtySt noStat 0 rfl rfl (by decide) (by decide)

/-- C9 counterexample: a pass-through node in steady state
(`should_run` false) still causes a status-store write, because
`empty_updater` returns the tuple `(None,)`, which is truthy, so
`tree_updater` records it as the node's error. -/
theorem c9_counterexample :
    (tree_step passInfo okBeh steadySt noStat 0).stat 0
        = some (.tupleOfNone, none)
    ∧ ((tree_step passInfo okBeh steadySt noStat 0).st 0).is_output_changed = false
    ∧ noStat 0 = none := by decide

/-- C9 amended: a pass-through node step ends with `is_updated = true`
and `is_output_changed` equal to `should_run`, never suspends, and
always causes a status-store write for the node, recording the truthy
`(None,)` tuple returned by `empty_updater` as its error with no
update time. -/
theorem c9_empty_updater_behavior (info : Nat → NodeInfo) (bv : Behavior)
    (st : States) (stat : Statuses) (n : Nat)
    (hk : (info n).kind = .empty)
    (hup : ((info n).last_nodes.all fun m => (st m).is_updated) = true) :
    ((tree_step info bv st stat n).st n).is_updated = true
    ∧ ((tree_step info bv st stat n).st n).is_output_changed
        = shouldRun st (info n).last_nodes n
    ∧ (tree_step info bv st stat n).stat n = some (.tupleOfNone, none)
    ∧ Ev.yieldNode n ∉ (tree_step info bv st stat n).events := by
  simp [tree_step, select_updater, hup, hk, empty_updater, PyErrVal.truthy, setSt]

/-- Witness for C9 amended at the concrete steady pass-through node. -/
theorem c9_empty_updater_behavior_witness :
    ((tree_step passInfo okBeh steadySt noStat 0).st 0).is_updated = true
    ∧ ((tree_step passInfo okBeh steadySt noStat 0).st 0).is_output_changed
        = shouldRun steadySt (passInfo 0).last_nodes 0
    ∧ (tree_step passInfo okBeh steadySt noStat 0).stat 0 = some (.tupleOfNone, none)
    ∧ Ev.yieldNode 0 ∉ (tree_step passInfo okBeh steadySt noStat 0).events :=
  c9_empty_updater_behavior passInfo okBeh steadySt noStat 0 rfl (by decide)

/-- C10 counterexample: a dispatched pass-through node (its
`should_run` was true, as its `is_output_changed` becoming true shows)
reaches no suspension point at all: `empty_updater` returns before its
`yield` statement. -/
theorem c10_counterexample :
    ((tree_step passInfo okBeh dirtySt noStat 0).st 0).is_output_changed = true
    ∧ Ev.yieldNode 0 ∉ (tree_step passInfo okBeh dirtySt noStat 0).events := by decide

/-- C10 amended: the group variant yields itself first, before any of
its work; the leaf variant resets `is_output_changed` and
`is_input_changed` before its yield and suspends only when dispatched;
and the pass-through variant never suspends. -/
theorem c10_yield_order (st : States) (last : List Nat) (n : Nat) (oc : Outcome)
    (res : Bool → GroupRes) :
    (group_node_updater st last n res).events.head? = some (Ev.yieldNode n)
    ∧ (node_updater st last n oc).events.take 2
        = [Ev.setOutputChanged n false, Ev.setInputChanged n false]
    ∧ (Ev.yieldNode n ∈ (node_updater st last n oc).events
        ↔ shouldRun st last n = true)
    ∧ Ev.yieldNode n ∉ (empty_updater st last n).events := by
  by_cases hs : shouldRun st last n <;>
    cases oc <;>
      simp [node_updater, group_node_updater, empty_updater, hs]

/-- Witness for C10 amended at a concrete dirty node of each variant. -/
theorem c10_yield_order_witness :
    (group_node_updater dirtySt [] 0 (okBeh.groupRes 0)).events.head?
        = some (Ev.yieldNode 0)
    ∧ (node_updater dirtySt [] 0 .ok).events.take 2
        = [Ev.setOutputChanged 0 false, Ev.setInputChanged 0 false]
    ∧ (Ev.yieldNode 0 ∈ (node_updater dirtySt [] 0 .ok).events
        ↔ shouldRun dirtySt [] 0 = true)
    ∧ Ev.yieldNode 0 ∉ (empty_updater dirtySt [] 0).events :=
  c10_yield_order dirtySt [] 0 .ok (okBeh.groupRes 0)

/-- C8 counterexample: enqueueing a graph whose task is already
in-flight is not a no-op (a second task appears in the pending set, so
two live tasks exist for the graph identity), and
`NodesUpdater.add_task` fails with an error while an update runs. -/
theorem c8_counterexample :
    tasksAdd ⟨[], some 5⟩ 5 ≠ (⟨[], some 5⟩ : TasksState)
    ∧ tasksCount (tasksAdd (tasksPopCurrent (tasksAdd ⟨[], none⟩ 5)) 5) 5 = 2
    ∧ nodesUpdaterAddTask ⟨none, true⟩ 5 = .error "already updating a tree" := by
  refine ⟨by decide, by decide, rfl⟩

/-- C8 amended: enqueueing is idempotent on the pending set — a
duplicate enqueue for a graph with a pending task is a no-op, so the
pending set keeps at most one task per graph identity — but enqueueing
a graph whose task is in-flight (already popped to current) adds a
second, pending task, and `NodesUpdater.add_task` raises while any
update is running. -/
theorem c8_pending_enqueue_idempotent (s : TasksState) (id : Nat) :
    (id ∈ s.todo → tasksAdd s id = s)
    ∧ (s.todo.Nodup →
        (tasksAdd s id).todo.Nodup ∧ (tasksAdd s id).todo.count id ≤ 1)
    ∧ (s.current = some id → s.todo = [] → (tasksAdd s id).todo = [id]) := by
  refine ⟨?_, ?_, ?_⟩
  · intro h
    have hc : s.todo.contains id = true := by simpa using h
    unfold tasksAdd
    rw [if_pos hc]
  · intro hnd
    by_cases h : id ∈ s.todo
    · have hc : s.todo.contains id = true := by simpa using h
      unfold tasksAdd
      rw [if_pos hc]
      exact ⟨hnd, List.nodup_iff_count_le_one.mp hnd id⟩
    · have hc : ¬ s.todo.contains id = true := by simpa using h
      unfold tasksAdd
      rw [if_neg hc]
      refine ⟨List.Nodup.cons h hnd, ?_⟩
      simp [List.count_cons_self, List.count_eq_zero_of_not_mem h]
  · intro _ htodo
    simp [tasksAdd, htodo]

/-- Witness for C8 amended: a duplicate enqueue for a pending graph is
a no-op. -/
theorem c8_pending_enqueue_idempotent_witness :
    tasksAdd ⟨[3], none⟩ 3 = (⟨[3], none⟩ : TasksState) :=
  (c8_pending_enqueue_idempotent ⟨[3], none⟩ 3).1 (by decide)

/-! Machinery for the idempotence claim: a first all-successful walk
leaves every walked node updated with inputs unchanged, and a walk over
such a state dispatches nothing. -/

lemma tree_step_st_of_can (info : Nat → NodeInfo) (bv : Behavior)
    (st : States) (stat : Statuses) (n : Nat)
    (hup : ((info n).last_nodes.all fun m => (st m).is_updated) = true) :
    (tree_step info bv st stat n).st = (select_updater info bv st n).st := by
  simp only [tree_step, hup, Bool.not_true, Bool.false_eq_true, if_false]
  split <;> rfl

lemma tree_step_ok_post (info : Nat → NodeInfo) (bv : Behavior)
    (st : States) (stat : Statuses) (n : Nat)
    (hok : bv.proc n = .ok)
    (hg : ∀ b, (bv.groupRes n b).has_error = false)
    (hup : ((info n).last_nodes.all fun m => (st m).is_updated) = true) :
    ((tree_step info bv st stat n).st n).is_updated = true
    ∧ ((tree_step info bv st stat n).st n).is_input_changed = false := by
  rw [tree_step_st_of_can info bv st stat n hup]
  cases hk : (info n).kind
  · simp [select_updater, hk, group_node_updater, hg, setSt]
  · by_cases hs : shouldRun st (info n).last_nodes n
    · simp [select_updater, hk, node_updater, hok, hs, setSt]
    · have hs' : shouldRun st (info n).last_nodes n = false := by simpa using hs
      have hu : (st n).is_updated = true := by
        rcases Bool.or_eq_false_iff.mp hs' with ⟨h1, _⟩
        rcases Bool.or_eq_false_iff.mp h1 with ⟨h2, _⟩
        simpa using h2
      simp [select_updater, hk, node_updater, hs', setSt, hu]
  · simp [select_updater, hk, empty_updater, setSt]

lemma walk_all_ok (info : Nat → NodeInfo) (bv : Behavior)
    (hok : ∀ n, bv.proc n = .ok)
    (hg : ∀ n b, (bv.groupRes n b).has_error = false) :
    ∀ (L done : List Nat) (st : States) (stat : Statuses),
      topoOK info done L = true →
      (∀ m, m ∈ done → (st m).is_updated = true) →
      (∀ m, m ∈ done ∨ m ∈ L → ((tree_walk info bv st stat L).st m).is_updated = true)
      ∧ (∀ m, m ∈ L → ((tree_walk info bv st stat L).st m).is_input_changed = false) := by
  intro L
  induction L with
  | nil =>
      intro done st stat _ hdone
      refine ⟨fun m hm => ?_, fun m hm => by simp at hm⟩
      rcases hm with hm | hm
      · exact hdone m hm
      · simp at hm
  | cons n rest ih =>
      intro done st stat htopo hdone
      rw [show topoOK info done (n :: rest)
            = (((info n).last_nodes.all fun m => done.contains m)
                && topoOK info (n :: done) rest) from rfl,
          Bool.and_eq_true] at htopo
      obtain ⟨hcont, htopo'⟩ := htopo
      have hup : ((info n).last_nodes.all fun m => (st m).is_updated) = true := by
        rw [List.all_eq_true] at hcont ⊢
        intro m hm
        exact hdone m (by simpa using hcont m hm)
      have hpost := tree_step_ok_post info bv st stat n (hok n) (hg n) hup
      have hdone' : ∀ m, m ∈ n :: done →
          (((tree_step info bv st stat n).st) m).is_updated = true := by
        intro m hm
        rcases List.mem_cons.mp hm with rfl | hm
        · exact hpost.1
        · by_cases hmn : m = n
          · subst hmn; exact hpost.1
          · rw [tree_step_st_other info bv st stat n m hmn]
            exact hdone m hm
      have hrec := ih (n :: done) ((tree_step info bv st stat n).st)
        ((tree_step info bv st stat n).stat) htopo' hdone'
      constructor
      · intro m hm
        show ((tree_walk info bv ((tree_step info bv st stat n).st)
                ((tree_step info bv st stat n).stat) rest).st m).is_updated = true
        rcases hm with hm | hm
        · exact hrec.1 m (Or.inl (List.mem_cons_of_mem n hm))
        · rcases List.mem_cons.mp hm with rfl | hm
          · exact hrec.1 m (Or.inl (List.mem_cons_self m done))
          · exact hrec.1 m (Or.inr hm)
      · intro m hm
        show ((tree_walk info bv ((tree_step info bv st stat n).st)
                ((tree_step info bv st stat n).stat) rest).st m).is_input_changed = false
        rcases List.mem_cons.mp hm with rfl | hm
        · by_cases hmr : m ∈ rest
          · exact hrec.2 m hmr
          · rw [tree_walk_st_nonmem info bv rest _ _ m hmr]
            exact hpost.2
        · exact hrec.2 m hm

lemma tree_step_quiescent (info : Nat → NodeInfo) (bv : Behavior)
    (st : States) (stat : Statuses) (n : Nat)
    (hg0 : bv.groupRes n false = ⟨false, false⟩)
    (hup : ((info n).last_nodes.all fun m => (st m).is_updated) = true)
    (hprev : prevChanged st (info n).last_nodes = false)
    (hu : (st n).is_updated = true)
    (hic : (st n).is_input_changed = false) :
    (((tree_step info bv st stat n).st n).is_updated = true
      ∧ ((tree_step info bv st stat n).st n).is_input_changed = false
      ∧ ((tree_step info bv st stat n).st n).is_output_changed = false)
    ∧ (∀ m, Ev.runProcess m ∉ (tree_step info bv st stat n).events)
    ∧ (∀ m, Ev.setOutputChanged m true ∉ (tree_step info bv st stat n).events)
    ∧ (∀ m b, Ev.runNested m b ∈ (tree_step info bv st stat n).events → b = false) := by
  have hs : shouldRun st (info n).last_nodes n = false := by
    simp [shouldRun, hu, hic, hprev]
  cases hk : (info n).kind
  · simp [tree_step, select_updater, hk, hup, group_node_updater, hs, hg0,
      setSt, PyErrVal.truthy]
  · simp [tree_step, select_updater, hk, hup, node_updater, hs, setSt,
      PyErrVal.truthy, hu]
  · simp [tree_step, select_updater, hk, hup, empty_updater, hs, setSt,
      PyErrVal.truthy]

lemma walk_quiescent (info : Nat → NodeInfo) (bv : Behavior)
    (hg0 : ∀ n, bv.groupRes n false = ⟨false, false⟩) :
    ∀ (L done : List Nat) (st : States) (stat : Statuses),
      topoOK info done L = true →
      (∀ m, m ∈ done → (st m).is_updated = true ∧ (st m).is_input_changed = false
            ∧ (st m).is_output_changed = false) →
      (∀ m, m ∈ L → (st m).is_updated = true ∧ (st m).is_input_changed = false) →
      (∀ m, m ∈ done ∨ m ∈ L →
          ((tree_walk info bv st stat L).st m).is_updated = true
          ∧ ((tree_walk info bv st stat L).st m).is_input_changed = false
          ∧ ((tree_walk info bv st stat L).st m).is_output_changed = false)
      ∧ (∀ m, Ev.runProcess m ∉ (tree_walk info bv st stat L).events)
      ∧ (∀ m, Ev.setOutputChanged m true ∉ (tree_walk info bv st stat L).events)
      ∧ (∀ m b, Ev.runNested m b ∈ (tree_walk info bv st stat L).events → b = false) := by
  intro L
  induction L with
  | nil =>
      intro done st stat _ hdone _
      refine ⟨fun m hm => ?_, by simp [tree_walk], by simp [tree_walk], by simp [tree_walk]⟩
      rcases hm with hm | hm
      · exact hdone m hm
      · simp at hm
  | cons n rest ih =>
      intro done st stat htopo hdone hL
      rw [show topoOK info done (n :: rest)
            = (((info n).last_nodes.all fun m => done.contains m)
                && topoOK info (n :: done) rest) from rfl,
          Bool.and_eq_true] at htopo
      obtain ⟨hcont, htopo'⟩ := htopo
      have hmemdone : ∀ m ∈ (info n).last_nodes, m ∈ done := by
        intro m hm
        simpa using List.all_eq_true.mp hcont m hm
      have hup : ((info n).last_nodes.all fun m => (st m).is_updated) = true := by
        rw [List.all_eq_true]
        intro m hm
        simp [(hdone m (hmemdone m hm)).1]
      have hprev : prevChanged st (info n).last_nodes = false := by
        rw [prevChanged, List.any_eq_false]
        intro m hm
        simp [(hdone m (hmemdone m hm)).2.2]
      have hstep := tree_step_quiescent info bv st stat n (hg0 n) hup hprev
        (hL n (List.mem_cons_self n rest)).1 (hL n (List.mem_cons_self n rest)).2
      have hdone' : ∀ m, m ∈ n :: done →
          (((tree_step info bv st stat n).st) m).is_updated = true
          ∧ (((tree_step info bv st stat n).st) m).is_input_changed = false
          ∧ (((tree_step info bv st stat n).st) m).is_output_changed = false := by
        intro m hm
        by_cases hmn : m = n
        · subst hmn; exact hstep.1
        · rcases List.mem_cons.mp hm with rfl | hm
          · exact hstep.1
          · rw [tree_step_st_other info bv st stat n m hmn]
            exact hdone m hm
      have hL' : ∀ m, m ∈ rest →
          (((tree_step info bv st stat n).st) m).is_updated = true
          ∧ (((tree_step info bv st stat n).st) m).is_input_changed = false := by
        intro m hm
        by_cases hmn : m = n
        · subst hmn; exact ⟨hstep.1.1, hstep.1.2.1⟩
        · rw [tree_step_st_other info bv st stat n m hmn]
          exact hL m (List.mem_cons_of_mem n hm)
      have hrec := ih (n :: done) ((tree_step info bv st stat n).st)
        ((tree_step info bv st stat n).stat) htopo' hdone' hL'
      have hev : (tree_walk info bv st stat (n :: rest)).events
          = (tree_step info bv st stat n).events
            ++ (tree_walk info bv ((tree_step info bv st stat n).st)
                  ((tree_step info bv st stat n).stat) rest).events := rfl
      refine ⟨?_, ?_, ?_, ?_⟩
      · intro m hm
        show ((tree_walk info bv ((tree_step info bv st stat n).st)
                ((tree_step info bv st stat n).stat) rest).st m).is_updated = true ∧ _
        rcases hm with hm | hm
        · exact hrec.1 m (Or.inl (List.mem_cons_of_mem n hm))
        · rcases List.mem_cons.mp hm with rfl | hm
          · exact hrec.1 m (Or.inl (List.mem_cons_self m done))
          · exact hrec.1 m (Or.inr hm)
      · intro m
        rw [hev, List.mem_append]
        rintro (h | h)
        · exact hstep.2.1 m h
        · exact hrec.2.1 m h
      · intro m
        rw [hev, List.mem_append]
        rintro (h | h)
        · exact hstep.2.2.1 m h
        · exact hrec.2.2.1 m h
      · intro m b
        rw [hev, List.mem_append]
        rintro (h | h)
        · exact hstep.2.2.2 m b h
        · exact hrec.2.2.2 m b h

/-- C5: if a full walk in dependency order completes with every process
call succeeding and every group updater succeeding (and a group updater
invoked with an unchanged input reporting no output change), then a
second consecutive walk over the resulting state dispatches zero nodes:
its trace invokes no `process()` call, marks no node's output as
changed, and passes `is_input_changed = False` to every nested group
updater — that is, every node's `should_run` evaluates false. -/
theorem c5_idempotence (info : Nat → NodeInfo) (bv : Behavior)
    (w : List Nat) (st0 : States) (stat0 : Statuses)
    (htopo : topoOK info [] w = true)
    (hok : ∀ n, bv.proc n = .ok)
    (hge : ∀ n b, (bv.groupRes n b).has_error = false)
    (hg0 : ∀ n, bv.groupRes n false = ⟨false, false⟩) :
    (∀ m, Ev.runProcess m
        ∉ (tree_walk info bv (tree_walk info bv st0 stat0 w).st
            (tree_walk info bv st0 stat0 w).stat w).events)
    ∧ (∀ m, Ev.setOutputChanged m true
        ∉ (tree_walk info bv (tree_walk info bv st0 stat0 w).st
            (tree_walk info bv st0 stat0 w).stat w).events)
    ∧ (∀ m b, Ev.runNested m b
        ∈ (tree_walk info bv (tree_walk info bv st0 stat0 w).st
            (tree_walk info bv st0 stat0 w).stat w).events → b = false) := by
  have h1 := walk_all_ok info bv hok hge w [] st0 stat0 htopo (by simp)
  have h2 := walk_quiescent info bv hg0 w [] (tree_walk info bv st0 stat0 w).st
    (tree_walk info bv st0 stat0 w).stat htopo (by simp)
    (fun m hm => ⟨h1.1 m (Or.inr hm), h1.2 m hm⟩)
  exact ⟨h2.2.1, h2.2.2.1, h2.2.2.2⟩

/-- Witness for C5 on the concrete chain fixture: the second walk runs
no process call. -/
theorem c5_idempotence_witness :
    Ev.runProcess 2
        ∉ (tree_walk chainInfo okBeh
            (tree_walk chainInfo okBeh dirtySt noStat [0, 1, 2, 3, 4]).st
            (tree_walk chainInfo okBeh dirtySt noStat [0, 1, 2, 3, 4]).stat
            [0, 1, 2, 3, 4]).events :=
  (c5_idempotence chainInfo okBeh [0, 1, 2, 3, 4] dirtySt noStat (by decide)
    (fun _ => rfl) (fun n b => by cases b <;> rfl) (fun _ => rfl)).1 2

/-! Machinery for the topology-diff claims: extensional characterization
of the two marking folds. -/

lemma foldl_mark_added (old : OldTree) :
    ∀ (L : List Link) (f : Nat → Bool) (x : Nat),
      (L.foldl (fun f l =>
          if !(hasOldFromSocketLinks old l) then markInputChanged f l.from_node
          else markInputChanged f l.to_node) f) x
      = (f x || L.any fun l =>
            x = (if hasOldFromSocketLinks old l then l.to_node else l.from_node)) := by
  intro L
  induction L with
  | nil => intro f x; simp
  | cons l L ih =>
      intro f x
      rw [List.foldl_cons, ih, List.any_cons]
      by_cases hc : hasOldFromSocketLinks old l
      · by_cases hx : x = l.to_node <;>
          simp [hc, markInputChanged, hx, Bool.or_comm, Bool.or_assoc, Bool.or_left_comm]
      · have hc' : hasOldFromSocketLinks old l = false := by simpa using hc
        by_cases hx : x = l.from_node <;>
          simp [hc', markInputChanged, hx, Bool.or_comm, Bool.or_assoc, Bool.or_left_comm]

lemma foldl_mark_removed_preserve (new : NewTree) :
    ∀ (L : List Link) (f : Nat → Bool) (x : Nat), f x = true →
      (L.foldl (fun f l =>
          if new.names.contains l.to_node then markInputChanged f l.to_node else f) f) x
        = true := by
  intro L
  induction L with
  | nil => intro f x h; simpa
  | cons a L ih =>
      intro f x h
      rw [List.foldl_cons]
      apply ih
      by_cases hc : new.names.contains a.to_node = true
      · rw [if_pos hc]
        unfold markInputChanged
        split <;> simp [h]
      · rw [if_neg hc]
        exact h

lemma foldl_mark_removed_mem (new : NewTree) :
    ∀ (L : List Link) (f : Nat → Bool) (l : Link), l ∈ L →
      new.names.contains l.to_node = true →
      (L.foldl (fun f l =>
          if new.names.contains l.to_node then markInputChanged f l.to_node else f) f)
        l.to_node = true := by
  intro L
  induction L with
  | nil => intro f l h _; simp at h
  | cons a L ih =>
      intro f l hl hc
      rw [List.foldl_cons]
      rcases List.mem_cons.mp hl with rfl | hl
      · apply foldl_mark_removed_preserve
        rw [if_pos hc]
        simp [markInputChanged]
      · exact ih _ l hl hc

/-- C6: after the added-links pass of `_update_topology_status`, a node
is marked `is_input_changed` exactly when it already was, or some link
of `new.links - old.links` designates it — the link's destination when
the link's source node existed in the old snapshot and its specific
output socket had at least one outgoing link there, and in every other
case the link's source. -/
theorem c6_added_link_marking (old : OldTree) (new : NewTree)
    (f : Nat → Bool) (x : Nat) :
    mark_added_links old new f x
      = (f x
         || (new.links.filter fun l => !(old.links.contains l)).any fun l =>
              x = (if hasOldFromSocketLinks old l then l.to_node else l.from_node)) := by
  unfold mark_added_links
  exact foldl_mark_added old _ f x

/-- Old snapshot for the C6 witness: node 1's output socket 0 already
feeds node 3. -/
def oldT6 : OldTree :=
  ⟨[1, 3], [⟨1, 0, 3, 0⟩],
   fun x s => if x = 1 && s = 0 then some [⟨1, 0, 3, 0⟩] else none⟩

/-- New snapshot for the C6 witness: a link from node 1's socket 0 to
node 2 was added. -/
def newT6 : NewTree := ⟨[1, 2, 3], [⟨1, 0, 3, 0⟩, ⟨1, 0, 2, 0⟩]⟩

/-- Witness for C6 at the concrete snapshots: the marking of node 2 is
exactly the added-link designation. -/
theorem c6_added_link_marking_witness :
    mark_added_links oldT6 newT6 (fun _ => false) 2
      = ((fun _ => false : Nat → Bool) 2
         || (newT6.links.filter fun l => !(oldT6.links.contains l)).any fun l =>
              2 = (if hasOldFromSocketLinks oldT6 l then l.to_node else l.from_node)) :=
  c6_added_link_marking oldT6 newT6 (fun _ => false) 2

/-- C7: every link of `old.links - new.links` whose destination node
still exists in the new snapshot leaves that destination marked
`is_input_changed` after `_update_topology_status`. -/
theorem c7_removed_link_marking (old : OldTree) (new : NewTree)
    (f : Nat → Bool) (l : Link)
    (h1 : l ∈ old.links) (h2 : l ∉ new.links)
    (h3 : new.names.contains l.to_node = true) :
    update_topology_status old new f l.to_node = true := by
  unfold update_topology_status mark_removed_links
  apply foldl_mark_removed_mem
  · rw [List.mem_filter]
    exact ⟨h1, by simpa using h2⟩
  · exact h3

/-- Concrete removed link 1 → 2 used by the C7 witness. -/
def lk12 : Link := ⟨1, 0, 2, 0⟩

/-- Old snapshot holding nodes 1 and 2 and the link 1 → 2. -/
def oldT : OldTree := ⟨[1, 2], [lk12], fun _ _ => none⟩

/-- New snapshot where node 1 and the link are gone but node 2 stays. -/
def newT : NewTree := ⟨[2], []⟩

/-- Witness for C7: removing the only inbound link of node 2 marks
node 2 input-changed. -/
theorem c7_removed_link_marking_witness :
    update_topology_status oldT newT (fun _ => false) lk12.to_node = true :=
  c7_removed_link_marking oldT newT (fun _ => false) lk12
    (by decide) (by decide) (by decide)

end SvCore
